import Mathlib

/-!
Verification development for the AsuntosPublicos repository.

The relevant parts of `boletin_pdf.py`, `example.py` and `rss_reader.py`
are embedded as executable Lean definitions: the document segmenter and
its type-detection regexes, the field extractors (number, title,
signatories), the SUMARIO table-of-contents parser, the topic classifier
and account matcher, the RSS "published today" filter, and the gazette
locator.  Python regular expressions are translated into explicit
character-list matchers; Python `datetime` and the external HTTP layer
are abstracted as parameters (a current date, a URL-status function, a
date-parsing function), exactly as the code consumes them.
-/

/-- Characters accepted by the regex class for whitespace as it occurs in
the processed text (the ASCII range of Python's notion of whitespace). -/
def pyEsEspacio (c : Char) : Bool :=
  c = ' ' || c = '\t' || c = '\n' || c = '\r' || c = '\x0b' || c = '\x0c'

/-- Case folding as performed by Python's IGNORECASE / `str.lower()` on the
alphabet that appears in the patterns and inputs: ASCII letters plus the
Spanish accented capitals used by the gazette patterns. -/
def plegarCaso (c : Char) : Char :=
  if 'A' ≤ c && c ≤ 'Z' then Char.ofNat (c.toNat + 32)
  else if c = 'Á' then 'á'
  else if c = 'É' then 'é'
  else if c = 'Í' then 'í'
  else if c = 'Ó' then 'ó'
  else if c = 'Ú' then 'ú'
  else if c = 'Ñ' then 'ñ'
  else c

/-- Python `texto.lower()`. -/
def aMinusculas (s : String) : String :=
  String.mk (s.data.map plegarCaso)

/-- Compare one pattern character with one subject character, optionally
ignoring case (regex IGNORECASE). -/
def coincideChar (ci : Bool) (p c : Char) : Bool :=
  if ci then plegarCaso p = plegarCaso c else p = c

/-- Match a literal pattern at the head of the subject; return the rest of
the subject on success. -/
def coincideLiteral (ci : Bool) : List Char → List Char → Option (List Char)
  | [], cs => some cs
  | _ :: _, [] => none
  | p :: ps, c :: cs =>
    if coincideChar ci p c then coincideLiteral ci ps cs else none

/-- Regex fragment for one-or-more whitespace characters (greedy; the
tokens that follow it in every pattern are never whitespace, so greedy
matching is complete). -/
def espacios1 : List Char → Option (List Char)
  | [] => none
  | c :: cs => if pyEsEspacio c then some (cs.dropWhile pyEsEspacio) else none

/-- Python substring containment `p in s`. -/
def contieneSub (p : List Char) : List Char → Bool
  | [] => p.isEmpty
  | c :: cs => (coincideLiteral false p (c :: cs)).isSome || contieneSub p cs

/-- Python `s.strip()` restricted to the whitespace alphabet above. -/
def recortar (s : String) : String :=
  String.mk (((s.data.dropWhile pyEsEspacio).reverse.dropWhile pyEsEspacio).reverse)

/-- Interpret a list of decimal digit characters as a number
(Python `int(...)` on a digits-only string). -/
def digitosANat (ds : List Char) : Nat :=
  ds.foldl (fun n c => n * 10 + (c.toNat - 48)) 0

/-- Python `'\n'.join(lineas)`. -/
def unirLineas : List String → String
  | [] => ""
  | l :: ls => ls.foldl (fun acc x => acc ++ "\n" ++ x) l

/-- Python `texto.split('\n')` on character lists. -/
def dividirEn (sep : Char) : List Char → List (List Char)
  | [] => [[]]
  | c :: cs =>
    if c = sep then [] :: dividirEn sep cs
    else
      match dividirEn sep cs with
      | [] => [[c]]
      | g :: gs => (c :: g) :: gs

/-- Python `texto.split('\n')`. -/
def lineasDe (texto : String) : List String :=
  (dividirEn '\n' texto.data).map String.mk

/-- Regex fragment for the captured group of the document-type patterns:
digits, optionally followed by a slash and a four-digit year.  Returns the
captured text.  The digit run is maximal (the regex engine cannot
backtrack it: the next pattern character is a slash, never a digit). -/
def grupoNumero (cs : List Char) : Option String :=
  let ds := cs.takeWhile Char.isDigit
  if ds.isEmpty then none
  else
    match cs.drop ds.length with
    | '/' :: r =>
      let ys := r.take 4
      if ys.length = 4 && ys.all Char.isDigit then
        some (String.mk (ds ++ '/' :: ys))
      else some (String.mk ds)
    | _ => some (String.mk ds)

/-- Regex fragment for the optional numbering marker of the document-type
patterns followed by the number group.  If the marker matches
but no number follows it, the engine backtracks and retries without the
marker (which then fails at the marker letter, as in Python). -/
def marcadorNumero (ci : Bool) (cs : List Char) : Option String :=
  match cs with
  | n :: d :: rest =>
    if coincideChar ci 'N' n && (d = '°' || d = 'º') then
      match grupoNumero (rest.dropWhile pyEsEspacio) with
      | some g => some g
      | none => grupoNumero cs
    else grupoNumero cs
  | _ => grupoNumero cs

/-- Anchored match of one full document-type pattern: the keyword words
separated by whitespace runs, then whitespace, then the optional marker
and the number group.  Returns the captured number group. -/
def coincidePatronTipo (ci : Bool) : List String → List Char → Option String
  | [], _ => none
  | [w], cs =>
    (coincideLiteral ci w.data cs).bind fun r1 =>
    (espacios1 r1).bind fun r2 =>
    marcadorNumero ci r2
  | w :: ws, cs =>
    (coincideLiteral ci w.data cs).bind fun r1 =>
    (espacios1 r1).bind fun r2 =>
    coincidePatronTipo ci ws r2

/-- Unanchored search (Python `re.search`): try the anchored match at each
successive start position, returning the leftmost capture. -/
def buscarPatron (ci : Bool) (ws : List String) : List Char → Option String
  | [] => coincidePatronTipo ci ws []
  | c :: cs =>
    match coincidePatronTipo ci ws (c :: cs) with
    | some g => some g
    | none => buscarPatron ci ws cs

/-- The closed enumeration of supported document types
(`tipos_documentos` in `boletin_pdf.py`). -/
inductive Tipo where
  | LEY
  | DECRETO
  | RESOLUCION
  | DISPOSICION
  | DECISION_ADMINISTRATIVA
deriving DecidableEq, Repr

/-- Keyword words of each document-type pattern, as in the
`tipos_documentos` dictionary. -/
def patronTipo : Tipo → List String
  | .LEY => ["LEY"]
  | .DECRETO => ["DECRETO"]
  | .RESOLUCION => ["RESOLUCIÓN"]
  | .DISPOSICION => ["DISPOSICIÓN"]
  | .DECISION_ADMINISTRATIVA => ["DECISIÓN", "ADMINISTRATIVA"]

/-- The `tipos_documentos` dictionary in its insertion order. -/
def tiposDocumentos : List Tipo :=
  [.LEY, .DECRETO, .RESOLUCION, .DISPOSICION, .DECISION_ADMINISTRATIVA]

/-- `_detectar_inicio_documento`: anchored, case-insensitive test of each
type pattern against the line, in dictionary order. -/
def detectar_inicio_documento (linea : String) : Option Tipo :=
  tiposDocumentos.findSome? fun t =>
    if (coincidePatronTipo true (patronTipo t) linea.data).isSome then some t
    else none

/-- The line loop of `procesar_pdf`: maintain the current document type and
line buffer; a detected header flushes the open buffer and opens a new
document; other lines are appended when a document is open and discarded
before the first header; the final open buffer is flushed at the end. -/
def procesarLineasAux : Option Tipo → List String → List String → List (Tipo × String)
  | st, buf, [] =>
    match st with
    | some t => if buf.isEmpty then [] else [(t, unirLineas buf)]
    | none => []
  | st, buf, l :: ls =>
    match detectar_inicio_documento l with
    | some t =>
      match st with
      | some t0 =>
        if buf.isEmpty then procesarLineasAux (some t) [l] ls
        else (t0, unirLineas buf) :: procesarLineasAux (some t) [l] ls
      | none => procesarLineasAux (some t) [l] ls
    | none =>
      match st with
      | some t0 => procesarLineasAux (some t0) (buf ++ [l]) ls
      | none => procesarLineasAux none buf ls

/-- The segmenter of `procesar_pdf`, applied to the flattened page lines. -/
def procesar_lineas (lineas : List String) : List (Tipo × String) :=
  procesarLineasAux none [] lineas

/-- `_extraer_numero_documento`: re-apply the type pattern to the whole
block, case-sensitively and unanchored, returning the captured group. -/
def extraer_numero_documento (tipo : Tipo) (texto : String) : Option String :=
  buscarPatron false (patronTipo tipo) texto.data

/-- `_extraer_titulo`: among the first five lines, the first line that
contains a hyphen and is longer than ten characters, stripped. -/
def extraer_titulo (texto : String) : Option String :=
  let lineas := lineasDe texto
  ((lineas.take 5).find? fun l => l.data.contains '-' && l.length > 10).map recortar

/-- Uppercase letter class of the signatory-name regex. -/
def esMayus (c : Char) : Bool :=
  ('A' ≤ c && c ≤ 'Z') || c = 'Á' || c = 'É' || c = 'Í' || c = 'Ó' || c = 'Ú' || c = 'Ñ'

/-- Lowercase letter class of the signatory-name regex. -/
def esMinus (c : Char) : Bool :=
  ('a' ≤ c && c ≤ 'z') || c = 'á' || c = 'é' || c = 'í' || c = 'ó' || c = 'ú' || c = 'ñ'

/-- One word of the signatory-name regex: a capital followed by one or more
lowercase letters (the lowercase run is maximal; the regex cannot
backtrack it because the following token is whitespace or end). -/
def palabraNombre : List Char → Option (List Char)
  | [] => none
  | c :: rest =>
    if esMayus c then
      let lows := rest.takeWhile esMinus
      if lows.isEmpty then none else some (rest.drop lows.length)
    else none

/-- The repeated tail of the signatory-name regex: one or more groups of
whitespace plus a capitalized word, then end of line. -/
def gruposNombre : Nat → List Char → Bool
  | 0, _ => false
  | fuel + 1, cs =>
    match espacios1 cs with
    | none => false
    | some r =>
      match palabraNombre r with
      | none => false
      | some r2 => r2.isEmpty || gruposNombre fuel r2

/-- Full-line signatory-name regex test of `_extraer_firmantes`. -/
def esNombreFirmante (l : String) : Bool :=
  match palabraNombre l.data with
  | none => false
  | some r => gruposNombre (r.length + 1) r

/-- `_extraer_firmantes`: among the last ten lines, keep the lines that
look like a bare personal name, stripped. -/
def extraer_firmantes (texto : String) : List String :=
  let lineas := lineasDe texto
  ((lineas.drop (lineas.length - 10)).filter esNombreFirmante).map recortar

/-- One table-of-contents entry of `_extraer_sumario`. -/
structure EntradaSumario where
  tipo : String
  numero : String
  pagina : Nat
  referencia : String
deriving DecidableEq, Repr

/-- The document-type dictionary keys in insertion order, as iterated by
`_extraer_sumario`. -/
def tiposSumario : List String :=
  ["LEY", "DECRETO", "RESOLUCIÓN", "DISPOSICIÓN", "DECISIÓN ADMINISTRATIVA"]

/-- Tail of the summary-entry regex after the lazy gap: one or more dots,
optional whitespace, the literal page marker, optional whitespace, and the
captured page digits. -/
def colaSumario (cs : List Char) : Option Nat :=
  let dots := cs.takeWhile (· = '.')
  if dots.isEmpty then none
  else
    match coincideLiteral false "pág.".data ((cs.drop dots.length).dropWhile pyEsEspacio) with
    | none => none
    | some r2 =>
      let ds := (r2.dropWhile pyEsEspacio).takeWhile Char.isDigit
      if ds.isEmpty then none else some (digitosANat ds)

/-- The lazy any-character gap of the summary-entry regex: shortest gap
(never crossing a newline) after which the tail matches. -/
def brechaSumario : List Char → Option Nat
  | [] => colaSumario []
  | c :: cs =>
    match colaSumario (c :: cs) with
    | some p => some p
    | none => if c = '\n' then none else brechaSumario cs

/-- Anchored match of the summary-entry regex exactly as the source builds
it with an f-string: the `\x7b4\x7d` repetition in the year was consumed as an
f-string replacement field, so the compiled pattern requires one digit
followed by the literal character 4 after the slash, and the
captured number group is digits, slash, one digit and that literal 4. -/
def coincideSumario (tipo : List Char) (cs : List Char) : Option (String × Nat) :=
  (coincideLiteral false tipo cs).bind fun r1 =>
  (espacios1 r1).bind fun r2 =>
  (let ds := r2.takeWhile Char.isDigit
   if ds.isEmpty then none
   else
     match r2.drop ds.length with
     | '/' :: d :: '4' :: rest =>
       if d.isDigit then
         (brechaSumario rest).map fun pag => (String.mk (ds ++ '/' :: d :: ['4']), pag)
       else none
     | _ => none)

/-- Unanchored search for the summary-entry regex. -/
def buscarSumario (tipo : List Char) : List Char → Option (String × Nat)
  | [] => coincideSumario tipo []
  | c :: cs =>
    match coincideSumario tipo (c :: cs) with
    | some g => some g
    | none => buscarSumario tipo cs

/-- Per-line entry detection of `_extraer_sumario`: for each type keyword
contained in the line, try the summary-entry regex; the first success
wins. -/
def sumarioLinea (l : String) : Option EntradaSumario :=
  tiposSumario.findSome? fun tipo =>
    if contieneSub tipo.data l.data then
      (buscarSumario tipo.data l.data).map fun np =>
        ⟨tipo, np.1, np.2, recortar l⟩
    else none

/-- The line loop of `_extraer_sumario` over one page: skip blank lines,
append any detected entry, and stop the whole extraction when the line
contains the section marker "Primera Sección" (the returned flag). -/
def paginaSumario : List EntradaSumario → List String → List EntradaSumario × Bool
  | acc, [] => (acc, false)
  | acc, l :: ls =>
    if (recortar l).isEmpty then paginaSumario acc ls
    else
      let acc' :=
        match sumarioLinea l with
        | some e => acc ++ [e]
        | none => acc
      if contieneSub "Primera Sección".data l.data then (acc', true)
      else paginaSumario acc' ls

/-- The page loop of `_extraer_sumario`: capture starts on the page after
the one containing "SUMARIO" (that page itself is skipped), pages before
it are ignored, and an early stop inside a page ends everything. -/
def paginasSumario : Bool → List EntradaSumario → List String → List EntradaSumario
  | _, acc, [] => acc
  | enSumario, acc, pag :: rest =>
    if contieneSub "SUMARIO".data pag.data && !enSumario then
      paginasSumario true acc rest
    else if !enSumario then
      paginasSumario false acc rest
    else
      match paginaSumario acc (lineasDe pag) with
      | (acc', true) => acc'
      | (acc', false) => paginasSumario true acc' rest

/-- `_extraer_sumario` applied to the extracted texts of the leading
pages. -/
def extraer_sumario (paginas : List String) : List EntradaSumario :=
  paginasSumario false [] paginas

/-- One topic of the keyword dictionary (`temas` entries). -/
structure Tema where
  tema : String
  palabras_clave : List String
deriving DecidableEq, Repr

/-- One classification match (`tema_encontrado` dictionaries). -/
structure TemaEncontrado where
  tema : String
  palabra_encontrada : String
deriving DecidableEq, Repr

/-- Python substring test `palabra in texto` on strings. -/
def ocurre (palabra texto : String) : Bool :=
  contieneSub palabra.data texto.data

/-- The inner keyword loop with break of `_clasificar_documento` /
`clasificar_noticia`: the first keyword contained in the lowered text. -/
def buscarPalabraClave (texto_lower : String) : List String → Option String
  | [] => none
  | p :: ps =>
    if ocurre p texto_lower then some p else buscarPalabraClave texto_lower ps

/-- `_clasificar_documento`: lower-case the text once, then record at most
one match per topic in store order. -/
def clasificar_documento (temas : List Tema) (texto : String) : List TemaEncontrado :=
  let texto_lower := aMinusculas texto
  temas.foldl
    (fun acc td =>
      match buscarPalabraClave texto_lower td.palabras_clave with
      | some p => acc ++ [(⟨td.tema, p⟩ : TemaEncontrado)]
      | none => acc)
    []

/-- One news item as handled by `example.py` (a dict with a title, feed
metadata, and the keyword annotation added by the classification loop;
absent dict keys are modelled as `none`). -/
structure Noticia where
  title : String
  link : Option String
  published : Option String
  feed_name : String
  palabra_encontrada : Option String
deriving DecidableEq, Repr

/-- `clasificar_noticia`: same first-keyword-per-topic scan over the
lowered title. -/
def clasificar_noticia (temas : List Tema) (noticia : Noticia) : List TemaEncontrado :=
  let titulo := aMinusculas noticia.title
  temas.foldl
    (fun acc td =>
      match buscarPalabraClave titulo td.palabras_clave with
      | some p => acc ++ [(⟨td.tema, p⟩ : TemaEncontrado)]
      | none => acc)
    []

/-- The per-item annotation loop of `main` in `example.py`: for each match,
the item's keyword field is assigned that match's keyword (the same item
object is appended to every matched topic's list, so its final state is
shared). -/
def anotarNoticia (noticia : Noticia) (ms : List TemaEncontrado) : Noticia :=
  ms.foldl (fun n m => { n with palabra_encontrada := some m.palabra_encontrada }) noticia

/-- One account row (`cuentas` entries): a name plus its interest list. -/
structure Cuenta where
  nombre : String
  temas : List String
deriving DecidableEq, Repr

/-- Enlarge an account's interest list by one topic. -/
def agregarTema (c : Cuenta) (t : String) : Cuenta :=
  ⟨c.nombre, c.temas ++ [t]⟩

/-- `_encontrar_cuentas_interesadas`: an account is collected when some
matched topic of the document is in its interest list; the final
list-of-set conversion in Python returns the distinct names in
unspecified order, modelled here as first-occurrence deduplication (all
statements below are about membership, which agrees). -/
def encontrar_cuentas_interesadas (cuentas : List Cuenta) (temasDocumento : List TemaEncontrado) : List String :=
  (cuentas.foldl
    (fun acc c =>
      if temasDocumento.any (fun td => c.temas.contains td.tema) then acc ++ [c.nombre]
      else acc)
    []).dedup

/-- A calendar date as compared by `_is_recent_entry`
(year, month, day of a parsed datetime). -/
structure Fecha where
  year : Nat
  month : Nat
  day : Nat
deriving DecidableEq, Repr

/-- One raw feed entry as consumed by `get_feed_entries` (attributes that
may be missing are `Option`). -/
structure EntradaFeed where
  title : Option String
  link : Option String
  published : Option String
  updated : Option String
  summary : Option String
deriving DecidableEq, Repr

/-- The publication string chosen by `get_feed_entries`: the `published`
attribute when present, else `updated`, else absent. -/
def publicadaDe (e : EntradaFeed) : Option String :=
  match e.published with
  | some p => some p
  | none => e.updated

/-- The normalized record built by `get_feed_entries` for one retained
entry. -/
structure DatosEntrada where
  title : String
  link : Option String
  published : Option String
  summary : Option String
  feed_name : String
deriving DecidableEq, Repr

/-- Build the normalized record (`entry_data` in the source). -/
def datosDe (feedName : String) (e : EntradaFeed) : DatosEntrada :=
  { title := e.title.getD "Sin título"
    link := e.link
    published := publicadaDe e
    summary := e.summary
    feed_name := feedName }

/-- `_is_recent_entry`: false on a missing or empty date string; parse via
the external date parser (passed as a function; a parser exception is the
`none` result) and compare year, month and day with the current date. -/
def is_recent_entry (parse : String → Option Fecha) (now : Fecha) (pub : Option String) : Bool :=
  match pub with
  | none => false
  | some s =>
    if s.isEmpty then false
    else
      match parse s with
      | none => false
      | some d => d.year == now.year && d.month == now.month && d.day == now.day

/-- The entry loop of `get_feed_entries`: skip entries that are not from
the current day; append the normalized record and stop as soon as the
retained count reaches the limit. -/
def getFeedEntriesAux (parse : String → Option Fecha) (now : Fecha) (feedName : String)
    (limit : Nat) : List DatosEntrada → List EntradaFeed → List DatosEntrada
  | acc, [] => acc
  | acc, e :: es =>
    if is_recent_entry parse now (publicadaDe e) then
      if limit ≤ (acc ++ [datosDe feedName e]).length then acc ++ [datosDe feedName e]
      else getFeedEntriesAux parse now feedName limit (acc ++ [datosDe feedName e]) es
    else getFeedEntriesAux parse now feedName limit acc es

/-- `get_feed_entries` on an already-fetched entry list (the network fetch
is the external collaborator): empty feeds yield an empty result, other
feeds are filtered by publication day up to the limit. -/
def get_feed_entries (parse : String → Option Fecha) (now : Fecha) (feedName : String)
    (limit : Nat) (entries : List EntradaFeed) : List DatosEntrada :=
  if entries.isEmpty then [] else getFeedEntriesAux parse now feedName limit [] entries

/-- The weekend rollback loop of `obtener_ultimo_boletin`: days are
numbered so that day modulo seven is the Python weekday (zero is Monday);
while the weekday exceeds four (Saturday or Sunday), step back one day. -/
def rollbackFinDeSemana : Nat → Nat
  | 0 => 0
  | d + 1 => if (d + 1) % 7 > 4 then rollbackFinDeSemana d else d + 1

/-- `obtener_ultimo_boletin`: roll the current date back over the weekend,
probe the date-keyed URL (the HTTP HEAD status is the external `status`
function, keyed by day); on 404 retry once with the previous day, and if
that is also 404 raise (modelled as the error result).  The returned day
stands for the URL built from it. -/
def obtener_ultimo_boletin (status : Nat → Nat) (hoy : Nat) : Except String Nat :=
  let d := rollbackFinDeSemana hoy
  if status d = 404 then
    if status (d - 1) = 404 then
      Except.error ("No se encontró el Boletín para la fecha " ++ toString (d - 1))
    else Except.ok (d - 1)
  else Except.ok d

/-- The scenario block of the specification for the LEY extraction test. -/
def bloqueC1 : String :=
  "LEY 27.000\nEstableciéndose el presente régimen - detalle.\nBUENOS AIRES\nJUAN PEREZ"

/-- Two single-keyword topics used to exhibit a doubly-matched news item. -/
def temasDoble : List Tema :=
  [⟨"Tema Uno", ["alfa"]⟩, ⟨"Tema Dos", ["beta"]⟩]

/-- A news item whose title contains a keyword of each topic above. -/
def noticiaDoble : Noticia :=
  ⟨"alfa y beta", none, none, "medio", none⟩

/-- A status function under which every date-keyed URL is missing. -/
def statusNoEncontrado : Nat → Nat := fun _ => 404

/-- A concrete date parser recognising two date strings, standing in for
the external general parser in witnesses. -/
def parseEjemplo : String → Option Fecha := fun s =>
  if s = "2026-10-12" then some ⟨2026, 10, 12⟩
  else if s = "2026-10-11" then some ⟨2026, 10, 11⟩
  else none

/-- The current day used by the witnesses. -/
def hoyEjemplo : Fecha := ⟨2026, 10, 12⟩

/-- A feed entry published on the witness current day. -/
def entradaHoy : EntradaFeed :=
  ⟨some "titular", none, some "2026-10-12", none, none⟩

/-- C1, counterexample: on the specified LEY block the Field Extractor does
not return number "27.000" together with that title and the signatory
list ["JUAN PEREZ"]: the number group stops before the thousands
separator and the all-uppercase name line fails the signatory regex. -/
theorem ley27000_claim_false :
    ¬ (extraer_numero_documento Tipo.LEY bloqueC1 = some "27.000" ∧
       extraer_titulo bloqueC1 = some "Estableciéndose el presente régimen - detalle." ∧
       extraer_firmantes bloqueC1 = ["JUAN PEREZ"]) := by
  decide

/-- C1, amended: on the specified LEY block the extracted number is "27",
the extracted title is the hyphenated second line, and the extracted
signatories list is empty. -/
theorem ley27000_campos_extraidos :
    extraer_numero_documento Tipo.LEY bloqueC1 = some "27" ∧
    extraer_titulo bloqueC1 = some "Estableciéndose el presente régimen - detalle." ∧
    extraer_firmantes bloqueC1 = [] := by
  decide

/-- C4: on a summary page containing the line "DECRETO 350/2025 .... pág. 3"
while capturing, the Summary Extractor emits no entry at all: the
compiled pattern demands a digit followed by the literal character 4
where the claim expects a four-digit year. -/
theorem sumario_decreto_350_2025_sin_entrada :
    extraer_sumario ["SUMARIO", "DECRETO 350/2025 .... pág. 3"] = [] := by
  decide

/-- C5, counterexample: a news item matching two topics has its keyword
annotation for the first topic ("alfa") replaced by the keyword of the
later topic ("beta"), so an already-present field is overwritten. -/
theorem anotacion_sobrescribe_cex :
    clasificar_noticia temasDoble noticiaDoble =
      [⟨"Tema Uno", "alfa"⟩, ⟨"Tema Dos", "beta"⟩] ∧
    (anotarNoticia noticiaDoble [⟨"Tema Uno", "alfa"⟩]).palabra_encontrada = some "alfa" ∧
    (anotarNoticia noticiaDoble (clasificar_noticia temasDoble noticiaDoble)).palabra_encontrada
      ≠ some "alfa" := by
  decide

/-- C5, amended: the annotation loop overwrites the matched-keyword field
— after processing, it holds the keyword of the last matched topic (or
its previous value when nothing matched) — while every other field of
the item is left unchanged. -/
theorem anotacion_ultima_palabra (n : Noticia) (ms : List TemaEncontrado) :
    (anotarNoticia n ms).palabra_encontrada
      = (ms.map fun m => some m.palabra_encontrada).getLastD n.palabra_encontrada ∧
    (anotarNoticia n ms).title = n.title ∧
    (anotarNoticia n ms).link = n.link ∧
    (anotarNoticia n ms).published = n.published ∧
    (anotarNoticia n ms).feed_name = n.feed_name := by
  induction ms generalizing n with
  | nil => exact ⟨rfl, rfl, rfl, rfl, rfl⟩
  | cons m ms ih =>
    have h := ih { n with palabra_encontrada := some m.palabra_encontrada }
    refine ⟨?_, h.2.1, h.2.2.1, h.2.2.2.1, h.2.2.2.2⟩
    rw [List.map_cons, List.getLastD_cons]
    exact h.1

theorem rollback_le (hoy : Nat) : rollbackFinDeSemana hoy ≤ hoy := by
  induction hoy with
  | zero => exact Nat.le_refl 0
  | succ d ih =>
    simp only [rollbackFinDeSemana]
    split
    · exact Nat.le_trans ih (Nat.le_succ d)
    · exact Nat.le_refl _

theorem rollback_habil (hoy : Nat) : rollbackFinDeSemana hoy % 7 ≤ 4 := by
  induction hoy with
  | zero => decide
  | succ d ih =>
    simp only [rollbackFinDeSemana]
    split
    · exact ih
    · omega

theorem rollback_fijo (hoy : Nat) (h : hoy % 7 ≤ 4) : rollbackFinDeSemana hoy = hoy := by
  cases hoy with
  | zero => rfl
  | succ d =>
    simp only [rollbackFinDeSemana]
    rw [if_neg]
    omega

/-- C7: the gazette locator rolls the current day back over the weekend to
a business day not later than it (leaving business days unchanged);
when that day's URL is found it is returned; when it is missing the
previous day is probed exactly once and returned if found; when both are
missing the locator fails with the not-found error and returns no URL. -/
theorem localizador_boletin_reintento (status : Nat → Nat) (hoy : Nat) :
    (rollbackFinDeSemana hoy % 7 ≤ 4 ∧ rollbackFinDeSemana hoy ≤ hoy ∧
      (hoy % 7 ≤ 4 → rollbackFinDeSemana hoy = hoy)) ∧
    (status (rollbackFinDeSemana hoy) ≠ 404 →
      obtener_ultimo_boletin status hoy = Except.ok (rollbackFinDeSemana hoy)) ∧
    (status (rollbackFinDeSemana hoy) = 404 → status (rollbackFinDeSemana hoy - 1) ≠ 404 →
      obtener_ultimo_boletin status hoy = Except.ok (rollbackFinDeSemana hoy - 1)) ∧
    (status (rollbackFinDeSemana hoy) = 404 → status (rollbackFinDeSemana hoy - 1) = 404 →
      obtener_ultimo_boletin status hoy =
        Except.error ("No se encontró el Boletín para la fecha "
          ++ toString (rollbackFinDeSemana hoy - 1))) := by
  refine ⟨⟨rollback_habil hoy, rollback_le hoy, rollback_fijo hoy⟩, ?_, ?_, ?_⟩
  · intro h1
    simp only [obtener_ultimo_boletin]
    rw [if_neg h1]
  · intro h1 h2
    simp only [obtener_ultimo_boletin]
    rw [if_pos h1, if_neg h2]
  · intro h1 h2
    simp only [obtener_ultimo_boletin]
    rw [if_pos h1, if_pos h2]

/-- C7 witness: with every URL missing and day six (a Sunday under the
day-zero-is-Monday convention), the locator rolls back to day four,
retries day three, and fails with the not-found error. -/
theorem localizador_boletin_reintento_test :
    obtener_ultimo_boletin statusNoEncontrado 6 =
      Except.error ("No se encontró el Boletín para la fecha "
        ++ toString (rollbackFinDeSemana 6 - 1)) :=
  (localizador_boletin_reintento statusNoEncontrado 6).2.2.2 rfl rfl

theorem procesarAux_len_abierto (ls : List String) :
    ∀ (t : Tipo) (buf : List String), buf.isEmpty = false →
      (procesarLineasAux (some t) buf ls).length
        = (ls.filter fun l => (detectar_inicio_documento l).isSome).length + 1 := by
  induction ls with
  | nil =>
    intro t buf h
    simp [procesarLineasAux, h]
  | cons l ls ih =>
    intro t buf h
    cases hd : detectar_inicio_documento l with
    | some t1 =>
      have hi := ih t1 [l] rfl
      simp [procesarLineasAux, hd, h, hi]
    | none =>
      have hi := ih t (buf ++ [l]) (by simp)
      simp [procesarLineasAux, hd, h, hi]

theorem procesarAux_len_cerrado (ls : List String) :
    ∀ buf : List String,
      (procesarLineasAux none buf ls).length
        = (ls.filter fun l => (detectar_inicio_documento l).isSome).length := by
  induction ls with
  | nil => intro buf; simp [procesarLineasAux]
  | cons l ls ih =>
    intro buf
    cases hd : detectar_inicio_documento l with
    | some t1 =>
      have hi := procesarAux_len_abierto ls t1 [l] rfl
      simp [procesarLineasAux, hd, hi]
    | none =>
      have hi := ih buf
      simp [procesarLineasAux, hd, hi]

/-- C2: the Segmenter emits exactly one document per input line on which a
document-type opening pattern fires at line start — zero matching lines
give zero documents, and intervening non-matching lines never change the
count. -/
theorem segmentador_cuenta_documentos (lineas : List String) :
    (procesar_lineas lineas).length
      = (lineas.filter fun l => (detectar_inicio_documento l).isSome).length :=
  procesarAux_len_cerrado lineas []

theorem procesarAux_vuelca (ls : List String) :
    ∀ (t : Tipo) (buf : List String), buf.isEmpty = false →
      (∀ l ∈ ls, detectar_inicio_documento l = none) →
      procesarLineasAux (some t) buf ls = [(t, unirLineas (buf ++ ls))] := by
  induction ls with
  | nil =>
    intro t buf h _
    simp [procesarLineasAux, h]
  | cons l ls ih =>
    intro t buf h hall
    have hd : detectar_inicio_documento l = none := hall l (List.mem_cons_self l ls)
    simp only [procesarLineasAux, hd]
    rw [ih t (buf ++ [l]) (by simp) (fun x hx => hall x (List.mem_cons_of_mem l hx))]
    simp

/-- C10: a block whose opening line fires the case-insensitive detection
for a type, with no further header lines, is segmented as one document of
that type; and whenever the case-sensitive re-application of the same
pattern finds nothing in the block, the extracted document number is
absent. -/
theorem numero_sensible_mayusculas (l : String) (resto : List String) (t : Tipo)
    (h1 : detectar_inicio_documento l = some t)
    (h2 : ∀ l' ∈ resto, detectar_inicio_documento l' = none)
    (h3 : buscarPatron false (patronTipo t) (unirLineas (l :: resto)).data = none) :
    procesar_lineas (l :: resto) = [(t, unirLineas (l :: resto))] ∧
    extraer_numero_documento t (unirLineas (l :: resto)) = none := by
  constructor
  · show procesarLineasAux none [] (l :: resto) = _
    simp only [procesarLineasAux, h1]
    exact procesarAux_vuelca resto t [l] rfl h2
  · exact h3

/-- C10 witness: the block "Decreto 100" plus a body line is detected and
segmented as a DECRETO (case-insensitively), yet its extracted number is
absent because the case-sensitive search finds no uppercase occurrence. -/
theorem numero_sensible_mayusculas_test :
    procesar_lineas ["Decreto 100", "Texto del cuerpo del decreto."]
      = [(Tipo.DECRETO, unirLineas ["Decreto 100", "Texto del cuerpo del decreto."])] ∧
    extraer_numero_documento Tipo.DECRETO
      (unirLineas ["Decreto 100", "Texto del cuerpo del decreto."]) = none :=
  numero_sensible_mayusculas "Decreto 100" ["Texto del cuerpo del decreto."] Tipo.DECRETO
    (by decide) (by decide) (by decide)

theorem clasificar_foldl_eq (lower : String) (temas : List Tema) :
    ∀ acc : List TemaEncontrado,
      temas.foldl
        (fun acc td =>
          match buscarPalabraClave lower td.palabras_clave with
          | some p => acc ++ [(⟨td.tema, p⟩ : TemaEncontrado)]
          | none => acc)
        acc
      = acc ++ temas.filterMap
          (fun td => (buscarPalabraClave lower td.palabras_clave).map
            fun p => (⟨td.tema, p⟩ : TemaEncontrado)) := by
  induction temas with
  | nil => intro acc; simp
  | cons td ts ih =>
    intro acc
    cases hb : buscarPalabraClave lower td.palabras_clave with
    | some p => simp [List.filterMap_cons, hb, ih]
    | none => simp [List.filterMap_cons, hb, ih]

theorem buscarPalabra_some (lower : String) :
    ∀ (ps : List String) (p : String), buscarPalabraClave lower ps = some p →
      ocurre p lower = true ∧
      ∃ pre suf, ps = pre ++ p :: suf ∧ ∀ q ∈ pre, ocurre q lower = false := by
  intro ps
  induction ps with
  | nil => intro p hp; exact absurd hp (by simp [buscarPalabraClave])
  | cons q qs ih =>
    intro p hp
    by_cases hq : ocurre q lower = true
    · have : q = p := by
        simpa [buscarPalabraClave, hq] using hp
      subst this
      exact ⟨hq, [], qs, rfl, by simp⟩
    · have hq' : ocurre q lower = false := by
        cases hqq : ocurre q lower
        · rfl
        · exact absurd hqq hq
      have hp' : buscarPalabraClave lower qs = some p := by
        simpa [buscarPalabraClave, hq'] using hp
      obtain ⟨ho, pre, suf, heq, hall⟩ := ih p hp'
      refine ⟨ho, q :: pre, suf, by rw [heq]; rfl, ?_⟩
      intro x hx
      rcases List.mem_cons.1 hx with hx | hx
      · rw [hx]; exact hq'
      · exact hall x hx

theorem buscarPalabra_none (lower : String) :
    ∀ ps : List String, (∀ q ∈ ps, ocurre q lower = false) →
      buscarPalabraClave lower ps = none := by
  intro ps
  induction ps with
  | nil => intro _; rfl
  | cons q qs ih =>
    intro hall
    have hq := hall q (List.mem_cons_self q qs)
    simp only [buscarPalabraClave, hq, Bool.false_eq_true, if_false]
    exact ih fun x hx => hall x (List.mem_cons_of_mem q hx)

/-- C3: the classifier lower-cases the text once and contributes, per topic
in store order, exactly the optional first matching keyword: the result
is the topic-ordered list of matches; a returned keyword occurs in the
lowered text and every keyword before it in its topic's list does not;
and a topic none of whose keywords occurs — in particular one with an
empty keyword list — contributes nothing. -/
theorem clasificador_primera_palabra (temas : List Tema) (texto : String) :
    clasificar_documento temas texto
      = temas.filterMap
          (fun td => (buscarPalabraClave (aMinusculas texto) td.palabras_clave).map
            fun p => (⟨td.tema, p⟩ : TemaEncontrado)) ∧
    (∀ (ps : List String) (p : String),
      buscarPalabraClave (aMinusculas texto) ps = some p →
        ocurre p (aMinusculas texto) = true ∧
        ∃ pre suf, ps = pre ++ p :: suf ∧
          ∀ q ∈ pre, ocurre q (aMinusculas texto) = false) ∧
    (∀ ps : List String, (∀ q ∈ ps, ocurre q (aMinusculas texto) = false) →
      buscarPalabraClave (aMinusculas texto) ps = none) := by
  refine ⟨?_, buscarPalabra_some (aMinusculas texto), buscarPalabra_none (aMinusculas texto)⟩
  show List.foldl _ [] temas = _
  rw [clasificar_foldl_eq (aMinusculas texto) temas []]
  rfl

/-- C3 witness: on the specification's sample headline, a topic whose
keywords do not occur contributes no match. -/
theorem clasificador_primera_palabra_test :
    buscarPalabraClave
      (aMinusculas "El ministerio anuncia nueva política de salud pública")
      ["impuestos", "tarifas"] = none :=
  (clasificador_primera_palabra []
      "El ministerio anuncia nueva política de salud pública").2.2
    ["impuestos", "tarifas"] (by decide)

theorem getAux_reciente (parse : String → Option Fecha) (now : Fecha) (fn : String)
    (limit : Nat) :
    ∀ (es : List EntradaFeed) (acc : List DatosEntrada),
      (∀ d ∈ acc, is_recent_entry parse now d.published = true) →
      ∀ d ∈ getFeedEntriesAux parse now fn limit acc es,
        is_recent_entry parse now d.published = true := by
  intro es
  induction es with
  | nil => intro acc hacc; exact hacc
  | cons e es ih =>
    intro acc hacc
    cases hr : is_recent_entry parse now (publicadaDe e) with
    | false =>
      simp only [getFeedEntriesAux, hr, Bool.false_eq_true, if_false]
      exact ih acc hacc
    | true =>
      have hacc2 : ∀ d ∈ acc ++ [datosDe fn e],
          is_recent_entry parse now d.published = true := by
        intro d hd
        rcases List.mem_append.1 hd with hd | hd
        · exact hacc d hd
        · have : d = datosDe fn e := by simpa using hd
          rw [this]
          exact hr
      simp only [getFeedEntriesAux, hr, if_true]
      split
      · exact hacc2
      · exact ih (acc ++ [datosDe fn e]) hacc2

/-- C6: every record the News Normalizer retains has a publication string
that passes the current-day test; an entry with no date is rejected, an
entry whose date does not parse is rejected, and an entry parsed to any
other calendar day is rejected — all by returning false, never by
raising. -/
theorem normalizador_solo_dia_actual (parse : String → Option Fecha) (now : Fecha)
    (fn : String) (limit : Nat) (entries : List EntradaFeed) :
    (∀ d ∈ get_feed_entries parse now fn limit entries,
      is_recent_entry parse now d.published = true) ∧
    is_recent_entry parse now none = false ∧
    (∀ s, parse s = none → is_recent_entry parse now (some s) = false) ∧
    (∀ s f, parse s = some f →
      f.year ≠ now.year ∨ f.month ≠ now.month ∨ f.day ≠ now.day →
      is_recent_entry parse now (some s) = false) := by
  refine ⟨?_, rfl, ?_, ?_⟩
  · intro d hd
    simp only [get_feed_entries] at hd
    split at hd
    · exact absurd hd (by simp)
    · exact getAux_reciente parse now fn limit entries [] (by simp) d hd
  · intro s hs
    simp only [is_recent_entry]
    cases hse : s.isEmpty
    · simp [hs]
    · simp
  · intro s f hs hne
    simp only [is_recent_entry]
    cases hse : s.isEmpty
    · simp only [Bool.false_eq_true, if_false, hs]
      rcases hne with h | h | h <;> simp [beq_eq_false_iff_ne, h]
    · simp

/-- C6 witness: under the concrete parser, an entry dated the previous day
is rejected, as is an entry with no date. -/
theorem normalizador_solo_dia_actual_test :
    is_recent_entry parseEjemplo hoyEjemplo (some "2026-10-11") = false ∧
    is_recent_entry parseEjemplo hoyEjemplo none = false := by
  have h := normalizador_solo_dia_actual parseEjemplo hoyEjemplo "feed" 10 []
  exact ⟨h.2.2.2 "2026-10-11" ⟨2026, 10, 11⟩ (by decide) (by decide), h.2.1⟩

theorem getAux_toma (parse : String → Option Fecha) (now : Fecha) (fn : String)
    (limit : Nat) :
    ∀ (es : List EntradaFeed) (acc : List DatosEntrada), acc.length < limit →
      getFeedEntriesAux parse now fn limit acc es
        = acc ++ ((es.filter fun e => is_recent_entry parse now (publicadaDe e)).map
            (datosDe fn)).take (limit - acc.length) := by
  intro es
  induction es with
  | nil => intro acc _; simp [getFeedEntriesAux]
  | cons e es ih =>
    intro acc hlt
    cases hr : is_recent_entry parse now (publicadaDe e) with
    | false =>
      simp only [getFeedEntriesAux, hr, Bool.false_eq_true, if_false,
        List.filter_cons, hr]
      exact ih acc hlt
    | true =>
      by_cases hge : limit ≤ (acc ++ [datosDe fn e]).length
      · have h0 : limit - acc.length = 1 := by
          simp only [List.length_append, List.length_cons, List.length_nil] at hge
          omega
        simp [getFeedEntriesAux, hr, hge, h0, List.filter_cons,
          List.take_succ_cons, List.take_zero]
        intro h2
        exact absurd h2 (by omega)
      · have hlt2 : (acc ++ [datosDe fn e]).length < limit := Nat.lt_of_not_le hge
        have hk : limit - acc.length = (limit - (acc.length + 1)) + 1 := by
          simp only [List.length_append, List.length_cons, List.length_nil] at hlt2
          omega
        simp only [getFeedEntriesAux, hr, if_true, if_neg hge,
          List.filter_cons, List.map_cons]
        rw [ih (acc ++ [datosDe fn e]) hlt2, hk, List.take_succ_cons]
        simp [List.append_assoc]

/-- C9: for a positive limit (the source default is ten and the news
pipeline passes fifty), the News Normalizer returns exactly the first
`limit` current-day records — so at most `limit` entries are returned,
and current-day entries beyond the cap are silently dropped. -/
theorem limite_entradas_feed (parse : String → Option Fecha) (now : Fecha)
    (fn : String) (limit : Nat) (entries : List EntradaFeed) (h : 1 ≤ limit) :
    get_feed_entries parse now fn limit entries
      = ((entries.filter fun e => is_recent_entry parse now (publicadaDe e)).map
          (datosDe fn)).take limit ∧
    (get_feed_entries parse now fn limit entries).length ≤ limit := by
  have heq : get_feed_entries parse now fn limit entries
      = ((entries.filter fun e => is_recent_entry parse now (publicadaDe e)).map
          (datosDe fn)).take limit := by
    simp only [get_feed_entries]
    split
    · rename_i hemp
      rw [List.isEmpty_iff.1 hemp]
      simp
    · rw [getAux_toma parse now fn limit entries [] (by simpa using h)]
      simp
  refine ⟨heq, ?_⟩
  rw [heq]
  exact (List.length_take _ _).trans_le (Nat.min_le_left _ _)

/-- C9 witness: with eleven same-day entries and the default limit of ten,
exactly ten records are returned. -/
theorem limite_entradas_feed_test :
    (get_feed_entries parseEjemplo hoyEjemplo "feed" 10
        (List.replicate 11 entradaHoy)).length ≤ 10 :=
  (limite_entradas_feed parseEjemplo hoyEjemplo "feed" 10
    (List.replicate 11 entradaHoy) (by decide)).2

theorem mem_cuentas_loop (temasDoc : List TemaEncontrado) :
    ∀ (cuentas : List Cuenta) (acc : List String) (n : String),
      n ∈ cuentas.foldl
            (fun acc c =>
              if temasDoc.any (fun td => c.temas.contains td.tema) then acc ++ [c.nombre]
              else acc)
            acc
        ↔ n ∈ acc ∨ ∃ c, c ∈ cuentas ∧ c.nombre = n ∧
            temasDoc.any (fun td => c.temas.contains td.tema) = true := by
  intro cuentas
  induction cuentas with
  | nil => intro acc n; simp
  | cons c cs ih =>
    intro acc n
    rw [List.foldl_cons, ih]
    cases hc : temasDoc.any fun td => c.temas.contains td.tema with
    | true =>
      simp only [if_true, List.mem_append, List.mem_singleton, List.mem_cons]
      aesop
    | false =>
      simp only [Bool.false_eq_true, if_false, List.mem_cons]
      aesop

theorem mem_cuentas_interesadas (cuentas : List Cuenta) (temasDoc : List TemaEncontrado)
    (n : String) :
    n ∈ encontrar_cuentas_interesadas cuentas temasDoc
      ↔ ∃ c, c ∈ cuentas ∧ c.nombre = n ∧
          temasDoc.any (fun td => c.temas.contains td.tema) = true := by
  rw [encontrar_cuentas_interesadas, List.mem_dedup, mem_cuentas_loop temasDoc cuentas [] n]
  simp

theorem any_contains_mas (temasDoc : List TemaEncontrado) (l : List String) (t : String)
    (h : temasDoc.any (fun td => l.contains td.tema) = true) :
    temasDoc.any (fun td => (l ++ [t]).contains td.tema) = true := by
  rw [List.any_eq_true] at h ⊢
  obtain ⟨td, htd, hc⟩ := h
  refine ⟨td, htd, ?_⟩
  have : td.tema ∈ l := List.elem_iff.1 hc
  exact List.elem_iff.2 (List.mem_append_left _ this)

/-- C8: enlarging one account's interest list by one topic can only add
documents to that account's matched set — any document of the corpus
already matched to it stays matched — and the lookup result for every
other account name is unchanged on every document. -/
theorem cuentas_interesadas_monotonia (pre post : List Cuenta) (c : Cuenta) (t : String)
    (docs : List (List TemaEncontrado)) :
    (∀ doc ∈ docs,
      c.nombre ∈ encontrar_cuentas_interesadas (pre ++ c :: post) doc →
      c.nombre ∈ encontrar_cuentas_interesadas (pre ++ agregarTema c t :: post) doc) ∧
    (∀ doc ∈ docs, ∀ n, n ≠ c.nombre →
      (n ∈ encontrar_cuentas_interesadas (pre ++ c :: post) doc ↔
       n ∈ encontrar_cuentas_interesadas (pre ++ agregarTema c t :: post) doc)) := by
  constructor
  · intro doc _ hmem
    rw [mem_cuentas_interesadas] at hmem ⊢
    obtain ⟨c', hin, hn, hm⟩ := hmem
    rcases List.mem_append.1 hin with hin | hin
    · exact ⟨c', List.mem_append_left _ hin, hn, hm⟩
    · rcases List.mem_cons.1 hin with rfl | hin
      · refine ⟨agregarTema c' t, List.mem_append_right _ (List.mem_cons_self _ _), hn, ?_⟩
        exact any_contains_mas doc c'.temas t hm
      · exact ⟨c', List.mem_append_right _ (List.mem_cons_of_mem _ hin), hn, hm⟩
  · intro doc _ n hne
    rw [mem_cuentas_interesadas, mem_cuentas_interesadas]
    constructor
    · rintro ⟨c', hin, hn, hm⟩
      rcases List.mem_append.1 hin with hin | hin
      · exact ⟨c', List.mem_append_left _ hin, hn, hm⟩
      · rcases List.mem_cons.1 hin with rfl | hin
        · exact absurd hn.symm hne
        · exact ⟨c', List.mem_append_right _ (List.mem_cons_of_mem _ hin), hn, hm⟩
    · rintro ⟨c', hin, hn, hm⟩
      rcases List.mem_append.1 hin with hin | hin
      · exact ⟨c', List.mem_append_left _ hin, hn, hm⟩
      · rcases List.mem_cons.1 hin with rfl | hin
        · exact absurd hn.symm hne
        · exact ⟨c', List.mem_append_right _ (List.mem_cons_of_mem _ hin), hn, hm⟩

/-- C8 witness: an account matched through its existing interest remains
matched after one more topic is added to its interest list. -/
theorem cuentas_interesadas_monotonia_test :
    "ACME" ∈ encontrar_cuentas_interesadas
      ([] ++ agregarTema ⟨"ACME", ["Energía"]⟩ "Salud" :: [])
      [⟨"Energía", "tarifas"⟩] :=
  (cuentas_interesadas_monotonia [] [] ⟨"ACME", ["Energía"]⟩ "Salud"
      [[⟨"Energía", "tarifas"⟩]]).1
    [⟨"Energía", "tarifas"⟩] (by decide) (by decide)
